import Mathlib

/-!
Verification of the key-vault-manager secret transfer tool (src/app.py)
against its natural-language specification.  The Python source is embedded
shallowly: each function of app.py becomes a Lean definition over explicit
inputs (parsed transfer files, remote-call outcomes supplied as oracles),
and the observable behaviour (echo transcript, remote calls issued, exit
status, file contents) is returned as data.
-/

namespace KeyVault

/-- A single-quote character (code 39), kept out of string literals. -/
def sqChar : Char := Char.ofNat 39

/-- A string holding one single quote. -/
def sq : String := String.singleton sqChar

/-- Join a list of strings with a separator (model of str.join). -/
def joinSep (sep : String) : List String → String
  | [] => ""
  | [x] => x
  | x :: xs => x ++ sep ++ joinSep sep xs

/-- Lower-case hex digit for a value below 16. -/
def hexDigit (n : Nat) : Char :=
  if n < 10 then Char.ofNat (48 + n) else Char.ofNat (87 + n)

/-- Four lower-case hex digits, as json.dump uses in \u escapes. -/
def hex4 (n : Nat) : String :=
  String.mk [hexDigit (n / 4096 % 16), hexDigit (n / 256 % 16), hexDigit (n / 16 % 16), hexDigit (n % 16)]

/-- Modelled from the spec: the json.dump unicode escape for a code point
(ensure_ascii behaviour; a code point above 0xFFFF becomes a surrogate pair).
The Python json module is standard-library code not present under src/. -/
def uescape (n : Nat) : String :=
  if n ≤ 0xFFFF then "\\u" ++ hex4 n
  else
    "\\u" ++ hex4 (0xD800 + (n - 0x10000) / 1024) ++ "\\u" ++ hex4 (0xDC00 + (n - 0x10000) % 1024)

/-- Modelled from the spec: how json.dump writes one character of a string
(escapes the quote, the backslash, the named controls, and everything
outside printable ASCII). -/
def jescChar (c : Char) : String :=
  if c = '"' then "\\\""
  else if c = '\\' then "\\\\"
  else if c = '\n' then "\\n"
  else if c = '\t' then "\\t"
  else if c = '\r' then "\\r"
  else if c.toNat = 8 then "\\b"
  else if c.toNat = 12 then "\\f"
  else if c.toNat < 32 || c.toNat > 126 then uescape c.toNat
  else String.singleton c

/-- A JSON string literal as json.dump writes it. -/
def jsonStr (s : String) : String :=
  "\"" ++ String.join (s.toList.map jescChar) ++ "\""

/-- JSON values as produced by json.load: null, booleans, integers,
strings, arrays and objects (objects carry their key order; keys are
unique, as in a parsed Python dict). -/
inductive Json where
  | null : Json
  | bool (b : Bool) : Json
  | num (n : Int) : Json
  | str (s : String) : Json
  | arr (xs : List Json) : Json
  | obj (kvs : List (String × Json)) : Json

/-- Modelled from the spec: a two-hex-digit Python \xNN escape. -/
def pyHexEsc (n : Nat) : String :=
  "\\x" ++ String.mk [hexDigit (n / 16 % 16), hexDigit (n % 16)]

/-- Modelled from the spec: one character of a Python string repr with the
chosen quote character. -/
def pyEscChar (q : Char) (c : Char) : String :=
  if c = '\\' then "\\\\"
  else if c = q then "\\" ++ String.singleton q
  else if c = '\n' then "\\n"
  else if c = '\r' then "\\r"
  else if c = '\t' then "\\t"
  else if c.toNat < 32 || c.toNat = 127 then pyHexEsc c.toNat
  else String.singleton c

/-- Modelled from the spec: Python repr of a string (single quotes unless
the string contains one and no double quote). -/
def pyStrRepr (s : String) : String :=
  let q := if s.toList.contains sqChar && !(s.toList.contains '"') then '"' else sqChar
  String.singleton q ++ String.join (s.toList.map (pyEscChar q)) ++ String.singleton q

mutual

/-- Modelled from the spec: Python repr of a parsed JSON value (None, True,
False, ints, quoted strings, lists, dicts), as printed by an f-string for
non-string values and by the verbose pull echo. -/
def pyRepr : Json → String
  | Json.null => "None"
  | Json.bool b => if b then "True" else "False"
  | Json.num n => toString n
  | Json.str s => pyStrRepr s
  | Json.arr xs => "[" ++ pyReprItems xs ++ "]"
  | Json.obj kvs => "\x7b" ++ pyReprFields kvs ++ "\x7d"

/-- Comma-joined reprs of list items. -/
def pyReprItems : List Json → String
  | [] => ""
  | [x] => pyRepr x
  | x :: xs => pyRepr x ++ ", " ++ pyReprItems xs

/-- Comma-joined key: value reprs of dict fields. -/
def pyReprFields : List (String × Json) → String
  | [] => ""
  | [kv] => pyStrRepr kv.1 ++ ": " ++ pyRepr kv.2
  | kv :: kvs => pyStrRepr kv.1 ++ ": " ++ pyRepr kv.2 ++ ", " ++ pyReprFields kvs

end

/-- Modelled from the spec: how an f-string renders a parsed JSON value
(str() of the value: a string stays itself, anything else is its repr). -/
def pyFormat : Json → String
  | Json.str s => s
  | v => pyRepr v

/-- A secret record as pull parses it from the remote show call:
name, value, and tags (none models JSON null for an untagged secret). -/
structure PulledSecret where
  name : String
  value : String
  tags : Option (List (String × String))
deriving DecidableEq, Repr

/-- The tags field as a JSON value: null when absent remotely. -/
def tagsToJson : Option (List (String × String)) → Json
  | none => Json.null
  | some m => Json.obj (m.map fun p => (p.1, Json.str p.2))

/-- The parsed JSON object for a pulled secret, in the key order of the
query template (name, value, tags). -/
def pulledToJson (s : PulledSecret) : Json :=
  Json.obj [("name", Json.str s.name), ("value", Json.str s.value), ("tags", tagsToJson s.tags)]

/-- Modelled from the spec: json.dump of a tags value at nesting depth 2
with indent=4 (null, an empty object, or one line per tag pair). -/
def dumpTags : Option (List (String × String)) → String
  | none => "null"
  | some [] => "\x7b\x7d"
  | some m =>
    "\x7b\n" ++ joinSep ",\n" (m.map fun p => "            " ++ jsonStr p.1 ++ ": " ++ jsonStr p.2)
      ++ "\n        \x7d"

/-- Modelled from the spec: json.dump of one pulled record with indent=4. -/
def dumpRecord (s : PulledSecret) : String :=
  "    \x7b\n        \"name\": " ++ jsonStr s.name
    ++ ",\n        \"value\": " ++ jsonStr s.value
    ++ ",\n        \"tags\": " ++ dumpTags s.tags
    ++ "\n    \x7d"

/-- Modelled from the spec: json.dump(secrets, f, indent=4) for the list of
pulled records, exactly the string pull writes to the transfer file. -/
def dumpPulled : List PulledSecret → String
  | [] => "[]"
  | l => "[\n" ++ joinSep ",\n" (l.map dumpRecord) ++ "\n]"

/-- Split a character list at the first closing bracket, when there is one. -/
def splitAtClose : List Char → Option (List Char × List Char)
  | [] => none
  | c :: cs =>
    if c = ']' then some ([], cs)
    else match splitAtClose cs with
      | none => none
      | some p => some (c :: p.1, p.2)

/-- Scan a character class body: content up to the closing bracket, where a
bracket right at the start is literal content. -/
def scanClassAux (neg : Bool) (ps : List Char) : Option (Bool × List Char × List Char) :=
  match ps with
  | ']' :: rest => (splitAtClose rest).map (fun p => (neg, ']' :: p.1, p.2))
  | _ => (splitAtClose ps).map (fun p => (neg, p.1, p.2))

/-- Scan what follows an opening bracket of a glob pattern: negation flag,
class content, and the rest of the pattern; none when the class never
closes (the bracket is then a literal character). -/
def scanClass : List Char → Option (Bool × List Char × List Char)
  | '!' :: ps => scanClassAux true ps
  | ps => scanClassAux false ps

/-- Membership of a character in a class body (ranges via code points, a
hyphen first or last is literal). -/
def inClass : List Char → Char → Bool
  | [], _ => false
  | [x], c => x = c
  | x :: '-' :: y :: rest, c => (x ≤ c && c ≤ y) || inClass rest c
  | x :: rest, c => (x = c) || inClass rest c

theorem splitAtClose_length : ∀ cs a b, splitAtClose cs = some (a, b) → b.length < cs.length := by
  intro cs
  induction cs with
  | nil => intro a b h; simp [splitAtClose] at h
  | cons c cs ih =>
    intro a b h
    by_cases hc : c = ']'
    · simp [splitAtClose, hc] at h
      simp [← h.2]
    · simp [splitAtClose, hc] at h
      cases hs : splitAtClose cs with
      | none => rw [hs] at h; simp at h
      | some p =>
        rw [hs] at h
        simp at h
        have := ih p.1 p.2 (by rw [hs])
        simp [← h.2]
        omega

theorem scanClassAux_length (neg : Bool) (ps : List Char) (n : Bool) (c rest : List Char)
    (h : scanClassAux neg ps = some (n, c, rest)) : rest.length < ps.length := by
  unfold scanClassAux at h
  split at h
  · rename_i tail
    cases hs : splitAtClose tail with
    | none => rw [hs] at h; simp at h
    | some p =>
      rw [hs] at h
      have hlen := splitAtClose_length tail p.1 p.2 (by rw [hs])
      have h2 := Option.some.inj h
      have h3 : p.2 = rest := congrArg (fun t => t.2.2) h2
      rw [← h3]
      simp
      omega
  · cases hs : splitAtClose ps with
    | none => rw [hs] at h; simp at h
    | some p =>
      rw [hs] at h
      have hlen := splitAtClose_length ps p.1 p.2 (by rw [hs])
      have h2 := Option.some.inj h
      have h3 : p.2 = rest := congrArg (fun t => t.2.2) h2
      rw [← h3]
      exact hlen

theorem scanClass_length (ps : List Char) (n : Bool) (c rest : List Char)
    (h : scanClass ps = some (n, c, rest)) : rest.length < ps.length + 1 := by
  unfold scanClass at h
  split at h
  · rename_i tail
    have := scanClassAux_length true tail n c rest h
    simp
    omega
  · have := scanClassAux_length false _ n c rest h
    omega

/-- Modelled from the spec: fnmatch-style glob matching over explicit
character lists: a star matches any sequence, a question mark one
character, a bracket class one character from the class, and an unclosed
bracket is literal.  The Python fnmatch module is standard-library code
not present under src/. -/
def globMatch : List Char → List Char → Bool
  | [], [] => true
  | [], _ :: _ => false
  | '*' :: ps, [] => globMatch ps []
  | '*' :: ps, c :: cs => globMatch ps (c :: cs) || globMatch ('*' :: ps) cs
  | '?' :: ps, _ :: cs => globMatch ps cs
  | '?' :: _, [] => false
  | '[' :: ps, s =>
    match hsc : scanClass ps with
    | some q =>
      match s with
      | [] => false
      | c :: cs => (inClass q.2.1 c != q.1) && globMatch q.2.2 cs
    | none =>
      match s with
      | [] => false
      | c :: cs => (c = '[') && globMatch ps cs
  | p :: ps, c :: cs => (p = c) && globMatch ps cs
  | _ :: _, [] => false
termination_by ps s => ps.length + s.length
decreasing_by
  all_goals simp
  all_goals try omega
  all_goals (have hq := scanClass_length ps q.1 q.2.1 q.2.2 hsc; omega)

/-- The fnmatch.fnmatch call of pull (argument order: name, then pattern;
case is preserved, as on a POSIX host). -/
def fnmatch (name pat : String) : Bool :=
  globMatch pat.toList name.toList

/-- One invocation of the external az CLI, as issued by app.py. -/
inductive RemoteCall where
  | accountShow : RemoteCall
  | login : RemoteCall
  | accountSet (subscription : String) : RemoteCall
  | secretList (vault : String) (query : String) : RemoteCall
  | secretShow (id : String) : RemoteCall
  | secretSet (vault : String) (name : String) (value : String) (tagArgs : List String) : RemoteCall
deriving DecidableEq, Repr

/-- Key lookup in a parsed JSON object (Python dict indexing and the in
operator on the parse of a JSON file, whose keys are unique). -/
def jget : Json → String → Option Json
  | Json.obj kvs, k => (kvs.find? (fun p => p.1 = k)).map (·.2)
  | _, _ => none

/-- The isinstance(secret, dict) test of push_secrets. -/
def isDict : Json → Bool
  | Json.obj _ => true
  | _ => false

/-- The validation push_secrets applies to one record (line 47 of app.py):
it must be a dict and have name and value keys.  Presence only: empty
strings pass. -/
def validRecord (s : Json) : Bool :=
  isDict s && (jget s "name").isSome && (jget s "value").isSome

/-- The diagnostic push_secrets echoes for a record failing validation. -/
def malformedMsg : String :=
  "Error: Each secret must have " ++ sq ++ "name" ++ sq ++ " and " ++ sq ++ "value" ++ sq ++ " fields."

/-- What one run of push observably did: the echo transcript, the remote
set calls issued in order, the exit status (some 1 = exit(1); none = the
loop ran to completion, exit 0), and whether an uncaught Python exception
ended the run instead. -/
structure PushOutcome where
  echoes : List String
  calls : List RemoteCall
  exitCode : Option Nat
  exn : Bool
deriving DecidableEq, Repr

/-- The per-record loop of push_secrets (lines 46-66 of app.py) over the
parsed transfer file.  runSet gives the az returncode of the k-th set call
of the run.  A record whose tags value has no .items() (for example JSON
null) or whose name or value is not a string raises an uncaught exception
at lines 55/57, before any set call for it. -/
def push_go (vaultname : String) (runSet : Nat → Nat) : Nat → List Json → PushOutcome
  | _, [] => ⟨[], [], none, false⟩
  | k, s :: rest =>
    if validRecord s then
      match (jget s "tags").getD (Json.obj []) with
      | Json.obj kvs =>
        match jget s "name", jget s "value" with
        | some (Json.str name), some (Json.str value) =>
          let tagArgs := kvs.map (fun p => p.1 ++ "=" ++ pyFormat p.2)
          let call := RemoteCall.secretSet vaultname name value tagArgs
          if runSet k ≠ 0 then
            ⟨["Error pushing secret " ++ name], [call], some 1, false⟩
          else
            let o := push_go vaultname runSet (k + 1) rest
            ⟨("Secret " ++ name ++ " pushed successfully") :: o.echoes, call :: o.calls, o.exitCode, o.exn⟩
        | _, _ => ⟨[], [], none, true⟩
      | _ => ⟨[], [], none, true⟩
    else
      ⟨[malformedMsg], [], some 1, false⟩

/-- push_secrets of app.py, over the parsed contents of the transfer file
(a JSON array) and the oracle of remote set returncodes. -/
def push_secrets (vaultname : String) (secrets : List Json) (runSet : Nat → Nat) : PushOutcome :=
  let o := push_go vaultname runSet 0 secrets
  ⟨("Pushing secrets to vault: " ++ vaultname) :: o.echoes, o.calls, o.exitCode, o.exn⟩

/-- The listing call outcome: az returncode, the parsed id array of its
stdout (used when rc = 0), and its stderr text. -/
structure ListingResult where
  rc : Nat
  ids : List String
  stderr : String
deriving DecidableEq, Repr

/-- The query string pull builds for the listing call (lines 72-76). -/
def listQuery (tags : List (String × String)) : String :=
  if tags ≠ [] then
    "[?" ++ joinSep " && " (tags.map fun p => "tags." ++ p.1 ++ " == " ++ sq ++ p.2 ++ sq) ++ "].id"
  else "[].id"

/-- The progress echo for one pulled record (lines 100-109). -/
def echoFor (verbose : Bool) (s : PulledSecret) : String :=
  if verbose then "Secret pulled: " ++ pyRepr (pulledToJson s)
  else "Secret " ++ s.name ++ " pulled successfully (value hidden)"

/-- Whether a fetched record is kept (lines 97-105): the pattern gate is
Python truthiness (`if secret_name_pattern:`), so the glob is applied only
when a pattern was supplied and is non-empty; an absent or empty pattern
includes every record. -/
def includeRecord (pat : Option String) (s : PulledSecret) : Bool :=
  match pat with
  | some p => if p = "" then true else fnmatch s.name p
  | none => true

/-- What one run of pull observably did.  file is the transfer file's
contents after the run (prior contents when pull exited before writing). -/
structure PullOutcome where
  echoes : List String
  calls : List RemoteCall
  exitCode : Option Nat
  file : Option String
deriving DecidableEq, Repr

/-- The per-identifier loop of pull_secrets (lines 88-111): kept records,
echo lines and show calls, in listing order.  fetch gives the parsed record
of a show call, none for a non-zero returncode. -/
def pullLoop (fetch : String → Option PulledSecret) (pat : Option String) (verbose : Bool) :
    List String → List PulledSecret × List String × List RemoteCall
  | [] => ([], [], [])
  | id :: rest =>
    let tail := pullLoop fetch pat verbose rest
    match fetch id with
    | some s =>
      if includeRecord pat s then
        (s :: tail.1, echoFor verbose s :: tail.2.1, RemoteCall.secretShow id :: tail.2.2)
      else
        (tail.1, tail.2.1, RemoteCall.secretShow id :: tail.2.2)
    | none =>
      (tail.1, ("Error pulling secret " ++ id) :: tail.2.1, RemoteCall.secretShow id :: tail.2.2)

/-- pull_secrets of app.py over the listing and fetch oracles.  prior is
the transfer file's contents before the run. -/
def pull_secrets (vaultname : String) (tags : List (String × String)) (filename : String)
    (secret_name_pattern : Option String) (verbose : Bool)
    (listing : ListingResult) (fetch : String → Option PulledSecret)
    (prior : Option String) : PullOutcome :=
  let lc := RemoteCall.secretList vaultname (listQuery tags)
  let intro := "Pulling secrets from vault: " ++ vaultname
  if listing.rc ≠ 0 then
    { echoes := [intro, "Error fetching secrets", listing.stderr],
      calls := [lc], exitCode := some 1, file := prior }
  else
    let r := pullLoop fetch secret_name_pattern verbose listing.ids
    { echoes := intro :: (r.2.1 ++ ["Secrets saved to " ++ filename]),
      calls := lc :: r.2.2, exitCode := none, file := some (dumpPulled r.1) }

/-- Modelled from the spec: Python str.strip() over characters (drop
whitespace from both ends). -/
def pyStrip (s : String) : String :=
  String.mk (((s.toList.dropWhile Char.isWhitespace).reverse.dropWhile Char.isWhitespace).reverse)

/-- Modelled from the spec: Python str.lower() over characters. -/
def pyLower (s : String) : String :=
  String.mk (s.toList.map Char.toLower)

/-- confirm_action of app.py: strip, lower-case, compare with y. -/
def confirm_action (action : String) (vaultname : String) (response : String) : Bool :=
  pyLower (pyStrip response) == "y"

/-- The command-line arguments after argparse (direction is push or pull;
optional flags are none when absent). -/
structure Args where
  direction : String
  vaultname : Option String
  filename : String
  tags : Option (List String)
  name : Option String
  verbose : Bool
  subscription : Option String

/-- The two environment fallbacks read by main. -/
structure Env where
  subscriptionId : Option String
  keyvaultName : Option String

/-- Oracles for everything external to main: az returncodes and outputs,
the confirmation line typed, and the transfer file's state. -/
structure World where
  accountShowRc : Nat
  loginRc : Nat
  accountSetRc : Nat
  accountSetStderr : String
  confirmResponse : String
  listing : ListingResult
  fetch : String → Option PulledSecret
  runSet : Nat → Nat
  pushFile : List Json
  priorFile : Option String

/-- What one run of main observably did. -/
structure MainOutcome where
  echoes : List String
  calls : List RemoteCall
  exitCode : Option Nat
  exn : Bool
  file : Option String
deriving DecidableEq, Repr

/-- Python truthiness of an optional string: falsy when absent or empty. -/
def strFalsy : Option String → Bool
  | none => true
  | some s => s == ""

/-- The Python or of two optional strings (a or b): b when a is falsy. -/
def pyOr (a b : Option String) : Option String :=
  if strFalsy a then b else a

/-- azure_login_check of app.py: echoes, calls and exit status, from the
returncodes of az account show and az login. -/
def azure_login_check (accountShowRc loginRc : Nat) : List String × List RemoteCall × Option Nat :=
  if accountShowRc = 0 then ([], [RemoteCall.accountShow], none)
  else if loginRc = 0 then
    (["You are not logged in to Azure. Initiating " ++ sq ++ "az login" ++ sq ++ "...",
      "Login successful!"],
     [RemoteCall.accountShow, RemoteCall.login], none)
  else
    (["You are not logged in to Azure. Initiating " ++ sq ++ "az login" ++ sq ++ "...",
      "Error: Azure login failed. Please try logging in manually."],
     [RemoteCall.accountShow, RemoteCall.login], some 1)

/-- switch_subscription of app.py: no-op for a falsy id, else one account
set call, fatal on a non-zero returncode. -/
def switch_subscription (subscription_id : String) (rc : Nat) (stderr : String) :
    List String × List RemoteCall × Option Nat :=
  if subscription_id ≠ "" then
    if rc = 0 then
      (["Switching to subscription: " ++ subscription_id, "Subscription switched successfully."],
       [RemoteCall.accountSet subscription_id], none)
    else
      (["Switching to subscription: " ++ subscription_id,
        "Error switching to subscription " ++ subscription_id ++ ".", stderr],
       [RemoteCall.accountSet subscription_id], some 1)
  else ([], [], none)

/-- Python str.split on one separator character: the pieces between
occurrences, empty pieces kept. -/
def pySplitChar (sep : Char) : List Char → List (List Char)
  | [] => [[]]
  | c :: cs =>
    match pySplitChar sep cs with
    | [] => [[c]]
    | h :: t => if c = sep then [] :: h :: t else (c :: h) :: t

/-- The tag.split call of main, as a list of strings. -/
def pySplitEq (t : String) : List String :=
  (pySplitChar '=' t.toList).map (fun l => String.mk l)

/-- The generator dict(tag.split for tag in tags) consumes: the pair list
when every token splits into exactly two pieces, none when some token does
not (dict construction then raises ValueError). -/
def parseTagPairs : List String → Option (List (String × String))
  | [] => some []
  | t :: ts =>
    match pySplitEq t with
    | [k, v] => (parseTagPairs ts).map (fun r => (k, v) :: r)
    | _ => none

/-- Insertion into a Python dict built from pairs: a repeated key keeps its
first position and takes the last value. -/
def pyDictInsert (m : List (String × String)) (k v : String) : List (String × String) :=
  if m.any (fun p => p.1 = k) then m.map (fun p => if p.1 = k then (k, v) else p)
  else m ++ [(k, v)]

/-- The Python dict constructor over a pair list, in iteration order. -/
def pyDict (l : List (String × String)) : List (String × String) :=
  l.foldl (fun m p => pyDictInsert m p.1 p.2) []

/-- The tag_dict expression of main (line 158): the empty dict when no
tags flag was given, none when dict construction raises ValueError. -/
def mainTagDict (tags : Option (List String)) : Option (List (String × String)) :=
  match tags with
  | some ts => if ts ≠ [] then (parseTagPairs ts).map pyDict else some []
  | none => some []

/-- main of app.py (lines 123-159), over parsed arguments, the environment
and the oracles for everything external. -/
def main (args : Args) (env : Env) (w : World) : MainOutcome :=
  let subId := pyOr args.subscription env.subscriptionId
  let vn := pyOr args.vaultname env.keyvaultName
  if strFalsy subId then
    { echoes := ["Error: No subscription ID provided. Set the AZURE_SUBSCRIPTION_ID environment variable or use the --subscription flag."],
      calls := [], exitCode := some 1, exn := false, file := w.priorFile }
  else if strFalsy vn then
    { echoes := ["Error: No vault name provided. Set the AZURE_KEYVAULT_NAME environment variable or use the --vaultname flag."],
      calls := [], exitCode := some 1, exn := false, file := w.priorFile }
  else
    let subscription_id := subId.getD ""
    let vaultname := vn.getD ""
    let lg := azure_login_check w.accountShowRc w.loginRc
    if lg.2.2.isSome then
      { echoes := lg.1, calls := lg.2.1, exitCode := lg.2.2, exn := false, file := w.priorFile }
    else
      let sw := switch_subscription subscription_id w.accountSetRc w.accountSetStderr
      if sw.2.2.isSome then
        { echoes := lg.1 ++ sw.1, calls := lg.2.1 ++ sw.2.1, exitCode := sw.2.2, exn := false,
          file := w.priorFile }
      else
        let action := if args.direction = "push" then "push" else "pull"
        if ¬ confirm_action action vaultname w.confirmResponse then
          { echoes := lg.1 ++ sw.1 ++ ["Operation cancelled."], calls := lg.2.1 ++ sw.2.1,
            exitCode := some 0, exn := false, file := w.priorFile }
        else if args.direction = "push" then
          let o := push_secrets vaultname w.pushFile w.runSet
          { echoes := lg.1 ++ sw.1 ++ o.echoes, calls := lg.2.1 ++ sw.2.1 ++ o.calls,
            exitCode := o.exitCode, exn := o.exn, file := w.priorFile }
        else if args.direction = "pull" then
          match mainTagDict args.tags with
          | none =>
            { echoes := lg.1 ++ sw.1, calls := lg.2.1 ++ sw.2.1, exitCode := none, exn := true,
              file := w.priorFile }
          | some td =>
            let o := pull_secrets vaultname td args.filename args.name args.verbose
              w.listing w.fetch w.priorFile
            { echoes := lg.1 ++ sw.1 ++ o.echoes, calls := lg.2.1 ++ sw.2.1 ++ o.calls,
              exitCode := o.exitCode, exn := false, file := o.file }
        else
          { echoes := lg.1 ++ sw.1, calls := lg.2.1 ++ sw.2.1, exitCode := none, exn := false,
            file := w.priorFile }

/-- The specified content of the pull output: the successfully fetched
records, in listing order, kept when the optional name pattern accepts
them. -/
def pullFilter (fetch : String → Option PulledSecret) (pat : Option String) (ids : List String) :
    List PulledSecret :=
  (ids.filterMap fetch).filter (includeRecord pat)

theorem pullLoop_records (fetch : String → Option PulledSecret) (pat : Option String)
    (verbose : Bool) (ids : List String) :
    (pullLoop fetch pat verbose ids).1 = pullFilter fetch pat ids := by
  induction ids with
  | nil => rfl
  | cons id rest ih =>
    simp only [pullLoop, pullFilter, List.filterMap_cons]
    cases hf : fetch id with
    | none => simpa [pullFilter] using ih
    | some s =>
      cases hinc : includeRecord pat s <;>
        simpa [pullFilter, hinc, List.filter_cons] using ih

theorem pullLoop_calls (fetch : String → Option PulledSecret) (pat : Option String)
    (verbose : Bool) (ids : List String) :
    (pullLoop fetch pat verbose ids).2.2 = ids.map RemoteCall.secretShow := by
  induction ids with
  | nil => rfl
  | cons id rest ih =>
    simp only [pullLoop, List.map_cons]
    cases hf : fetch id with
    | none => simpa using ih
    | some s =>
      cases hinc : includeRecord pat s <;> simpa [hinc] using ih

theorem pullLoop_err_echo (fetch : String → Option PulledSecret) (pat : Option String)
    (verbose : Bool) (ids : List String) (id0 : String)
    (hmem : id0 ∈ ids) (hfail : fetch id0 = none) :
    ("Error pulling secret " ++ id0) ∈ (pullLoop fetch pat verbose ids).2.1 := by
  induction ids with
  | nil => cases hmem
  | cons id rest ih =>
    rcases List.mem_cons.mp hmem with h | h
    · subst h
      simp only [pullLoop, hfail]
      exact List.mem_cons_self _ _
    · have htail := ih h
      simp only [pullLoop]
      cases hf : fetch id with
      | none => exact List.mem_cons_of_mem _ htail
      | some s =>
        cases hinc : includeRecord pat s
        · simpa [hinc] using htail
        · simp only [hinc, if_true]
          exact List.mem_cons_of_mem _ htail

theorem pull_secrets_file_eq (vaultname : String) (tags : List (String × String))
    (filename : String) (pat : Option String) (verbose : Bool) (listing : ListingResult)
    (fetch : String → Option PulledSecret) (prior : Option String)
    (h : listing.rc = 0) :
    (pull_secrets vaultname tags filename pat verbose listing fetch prior).file
      = some (dumpPulled (pullFilter fetch pat listing.ids)) := by
  simp only [pull_secrets, h]
  simp [pullLoop_records]

/-- C1 counterexample: with the supplied empty pattern (reachable via a
--name flag with an empty argument), the glob matches nothing named x, yet
pull writes the record anyway — line 97 tests the pattern for Python
truthiness, so an empty pattern disables filtering instead of being
matched. The written array is therefore not exactly the records whose
names match the given pattern. -/
theorem pull_empty_pattern_counterexample_c1 :
    fnmatch "x" "" = false ∧
    (pull_secrets "kv" [] "f" (some "") false ⟨0, ["i1"], ""⟩
        (fun _ => some ⟨"x", "v", none⟩) none).file
      = some (dumpPulled [⟨"x", "v", none⟩]) :=
  ⟨by simp [fnmatch, globMatch], rfl⟩

/-- C1 (amended): for every vault listing result and every sequence of
per-identifier fetch outcomes, pull writes to filePath the JSON
serialization, with 4-space indentation, of exactly the successfully
fetched records kept by the pattern gate: when the pattern is absent or
the empty string (which the code treats as no pattern, by truthiness) all
records are kept, otherwise exactly those whose names match the glob; the
written contents do not depend on the file's prior contents (prior is
universally quantified and absent from the result). -/
theorem pull_file_exact_c1 (vaultname : String) (tags : List (String × String)) (filename : String)
    (pat : Option String) (verbose : Bool) (listing : ListingResult)
    (fetch : String → Option PulledSecret) (prior : Option String)
    (h : listing.rc = 0) :
    (pull_secrets vaultname tags filename pat verbose listing fetch prior).file
      = some (dumpPulled (pullFilter fetch pat listing.ids)) :=
  pull_secrets_file_eq vaultname tags filename pat verbose listing fetch prior h

/-- C1 witness: a concrete successful pull writes the serialized filtered
records, replacing the prior contents. -/
theorem pull_file_exact_c1_witness :
    (pull_secrets "kv" [] "out.json" (some "db-*") false ⟨0, ["i1", "i2"], ""⟩
        (fun i => if i = "i1" then some ⟨"db-pass", "s", some [("env", "prod")]⟩
                  else some ⟨"api-key", "t", none⟩) (some "OLD")).file
      = some (dumpPulled (pullFilter
          (fun i => if i = "i1" then some ⟨"db-pass", "s", some [("env", "prod")]⟩
                    else some ⟨"api-key", "t", none⟩) (some "db-*") ["i1", "i2"])) :=
  pull_file_exact_c1 "kv" [] "out.json" (some "db-*") false ⟨0, ["i1", "i2"], ""⟩ _ (some "OLD") rfl

/-- C5: when the fetch of one identifier fails during pull, pull reports
the failure for that identifier, still issues a show call for every listed
identifier, completes without a fatal exit, and writes the file holding
every other successfully fetched (and pattern-matching) record. -/
theorem pull_continues_c5 (vaultname : String) (tags : List (String × String)) (filename : String)
    (pat : Option String) (verbose : Bool) (listing : ListingResult)
    (fetch : String → Option PulledSecret) (prior : Option String) (id0 : String)
    (h : listing.rc = 0) (hmem : id0 ∈ listing.ids) (hfail : fetch id0 = none) :
    ("Error pulling secret " ++ id0)
        ∈ (pull_secrets vaultname tags filename pat verbose listing fetch prior).echoes ∧
    (pull_secrets vaultname tags filename pat verbose listing fetch prior).calls
      = RemoteCall.secretList vaultname (listQuery tags) :: listing.ids.map RemoteCall.secretShow ∧
    (pull_secrets vaultname tags filename pat verbose listing fetch prior).exitCode = none ∧
    (pull_secrets vaultname tags filename pat verbose listing fetch prior).file
      = some (dumpPulled (pullFilter fetch pat listing.ids)) := by
  refine ⟨?_, ?_, ?_, ?_⟩
  · simp only [pull_secrets, h]
    simp only [ne_eq, not_true_eq_false, if_false, ite_false]
    simp only [List.mem_cons, List.mem_append]
    exact Or.inr (Or.inl (pullLoop_err_echo fetch pat verbose listing.ids id0 hmem hfail))
  · simp only [pull_secrets, h]
    simp [pullLoop_calls]
  · simp [pull_secrets, h]
  · exact pull_secrets_file_eq vaultname tags filename pat verbose listing fetch prior h

/-- C5 witness: a concrete pull with one failing fetch reports it,
processes both identifiers and writes the surviving record. -/
theorem pull_continues_c5_witness :
    ("Error pulling secret " ++ "i1")
        ∈ (pull_secrets "kv" [] "f" none false ⟨0, ["i1", "i2"], ""⟩
            (fun i => if i = "i1" then none else some ⟨"a", "b", none⟩) none).echoes ∧
    (pull_secrets "kv" [] "f" none false ⟨0, ["i1", "i2"], ""⟩
        (fun i => if i = "i1" then none else some ⟨"a", "b", none⟩) none).calls
      = RemoteCall.secretList "kv" (listQuery []) :: ["i1", "i2"].map RemoteCall.secretShow ∧
    (pull_secrets "kv" [] "f" none false ⟨0, ["i1", "i2"], ""⟩
        (fun i => if i = "i1" then none else some ⟨"a", "b", none⟩) none).exitCode = none ∧
    (pull_secrets "kv" [] "f" none false ⟨0, ["i1", "i2"], ""⟩
        (fun i => if i = "i1" then none else some ⟨"a", "b", none⟩) none).file
      = some (dumpPulled (pullFilter
          (fun i => if i = "i1" then none else some ⟨"a", "b", none⟩) none ["i1", "i2"])) :=
  pull_continues_c5 "kv" [] "f" none false ⟨0, ["i1", "i2"], ""⟩
    (fun i => if i = "i1" then none else some ⟨"a", "b", none⟩) none "i1"
    rfl (by decide) (by decide)

/-- C6: when the listing call returns a non-zero exit, pull echoes the
remote stderr, exits with status 1, leaves the transfer file at its prior
contents, and issues no show call after the failed listing. -/
theorem pull_listing_fatal_c6 (vaultname : String) (tags : List (String × String))
    (filename : String) (pat : Option String) (verbose : Bool) (listing : ListingResult)
    (fetch : String → Option PulledSecret) (prior : Option String)
    (h : listing.rc ≠ 0) :
    (pull_secrets vaultname tags filename pat verbose listing fetch prior).exitCode = some 1 ∧
    (pull_secrets vaultname tags filename pat verbose listing fetch prior).file = prior ∧
    listing.stderr ∈ (pull_secrets vaultname tags filename pat verbose listing fetch prior).echoes ∧
    (pull_secrets vaultname tags filename pat verbose listing fetch prior).calls
      = [RemoteCall.secretList vaultname (listQuery tags)] := by
  simp [pull_secrets, h]

/-- C6 witness: a concrete failed listing exits 1, keeps the old file and
echoes the stderr text. -/
theorem pull_listing_fatal_c6_witness :
    (pull_secrets "kv" [] "f" none false ⟨3, ["i1"], "boom"⟩ (fun _ => none) (some "OLD")).exitCode
        = some 1 ∧
    (pull_secrets "kv" [] "f" none false ⟨3, ["i1"], "boom"⟩ (fun _ => none) (some "OLD")).file
        = some "OLD" ∧
    "boom" ∈ (pull_secrets "kv" [] "f" none false ⟨3, ["i1"], "boom"⟩ (fun _ => none)
        (some "OLD")).echoes ∧
    (pull_secrets "kv" [] "f" none false ⟨3, ["i1"], "boom"⟩ (fun _ => none) (some "OLD")).calls
      = [RemoteCall.secretList "kv" (listQuery [])] :=
  pull_listing_fatal_c6 "kv" [] "f" none false ⟨3, ["i1"], "boom"⟩ (fun _ => none) (some "OLD")
    (by decide)

/-- The name a record carries, for records whose name is a string. -/
def recordName (s : Json) : String :=
  match jget s "name" with
  | some (Json.str n) => n
  | _ => ""

/-- The value a record carries, for records whose value is a string. -/
def recordValue (s : Json) : String :=
  match jget s "value" with
  | some (Json.str v) => v
  | _ => ""

/-- The flattened key=value tag arguments of a record (line 55). -/
def recordTagArgs (s : Json) : List String :=
  match (jget s "tags").getD (Json.obj []) with
  | Json.obj kvs => kvs.map (fun p => p.1 ++ "=" ++ pyFormat p.2)
  | _ => []

/-- The set call push issues for one record. -/
def setCallOf (vaultname : String) (s : Json) : RemoteCall :=
  RemoteCall.secretSet vaultname (recordName s) (recordValue s) (recordTagArgs s)

/-- A record that push processes all the way to a set call: it passes
validation, its tags value (defaulted to the empty dict) is a dict, and
its name and value are strings. -/
def pushable (s : Json) : Bool :=
  validRecord s
    && (match (jget s "tags").getD (Json.obj []) with | Json.obj _ => true | _ => false)
    && (match jget s "name" with | some (Json.str _) => true | _ => false)
    && (match jget s "value" with | some (Json.str _) => true | _ => false)

theorem push_go_cons_ok (vaultname : String) (runSet : Nat → Nat) (k : Nat) (s : Json)
    (rest : List Json) (hp : pushable s = true) (hrc : runSet k = 0) :
    push_go vaultname runSet k (s :: rest)
      = ⟨("Secret " ++ recordName s ++ " pushed successfully")
            :: (push_go vaultname runSet (k + 1) rest).echoes,
         setCallOf vaultname s :: (push_go vaultname runSet (k + 1) rest).calls,
         (push_go vaultname runSet (k + 1) rest).exitCode,
         (push_go vaultname runSet (k + 1) rest).exn⟩ := by
  simp only [pushable, Bool.and_eq_true] at hp
  obtain ⟨⟨⟨hv, ht⟩, hn⟩, hval⟩ := hp
  rcases hT : (jget s "tags").getD (Json.obj []) with _ | _ | _ | _ | _ | kvs <;> rw [hT] at ht <;>
    simp at ht
  rcases hN : jget s "name" with _ | nj <;> rw [hN] at hn <;> try simp at hn
  rcases nj with _ | _ | _ | n | _ | _ <;> simp at hn
  rcases hV : jget s "value" with _ | vj <;> rw [hV] at hval <;> try simp at hval
  rcases vj with _ | _ | _ | v | _ | _ <;> simp at hval
  simp only [push_go, hv, if_true, hT, hN, hV, hrc, ne_eq, not_true_eq_false, if_false,
    recordName, recordValue, setCallOf, recordTagArgs, ite_false, ite_true]

theorem push_go_cons_fail (vaultname : String) (runSet : Nat → Nat) (k : Nat) (s : Json)
    (rest : List Json) (hp : pushable s = true) (hrc : runSet k ≠ 0) :
    push_go vaultname runSet k (s :: rest)
      = ⟨["Error pushing secret " ++ recordName s], [setCallOf vaultname s], some 1, false⟩ := by
  simp only [pushable, Bool.and_eq_true] at hp
  obtain ⟨⟨⟨hv, ht⟩, hn⟩, hval⟩ := hp
  rcases hT : (jget s "tags").getD (Json.obj []) with _ | _ | _ | _ | _ | kvs <;> rw [hT] at ht <;>
    simp at ht
  rcases hN : jget s "name" with _ | nj <;> rw [hN] at hn <;> try simp at hn
  rcases nj with _ | _ | _ | n | _ | _ <;> simp at hn
  rcases hV : jget s "value" with _ | vj <;> rw [hV] at hval <;> try simp at hval
  rcases vj with _ | _ | _ | v | _ | _ <;> simp at hval
  simp only [push_go, hv, if_true, hT, hN, hV, hrc, ne_eq, not_false_eq_true, if_true,
    recordName, recordValue, setCallOf, recordTagArgs, ite_true]

theorem push_go_cons_bad (vaultname : String) (runSet : Nat → Nat) (k : Nat) (s : Json)
    (rest : List Json) (hbad : validRecord s = false) :
    push_go vaultname runSet k (s :: rest) = ⟨[malformedMsg], [], some 1, false⟩ := by
  simp [push_go, hbad]

theorem push_go_append (vaultname : String) (runSet : Nat → Nat) (k : Nat) (pre rest : List Json)
    (h1 : ∀ x ∈ pre, pushable x = true)
    (h2 : ∀ j, j < pre.length → runSet (k + j) = 0) :
    push_go vaultname runSet k (pre ++ rest)
      = ⟨pre.map (fun s => "Secret " ++ recordName s ++ " pushed successfully")
            ++ (push_go vaultname runSet (k + pre.length) rest).echoes,
         pre.map (setCallOf vaultname)
            ++ (push_go vaultname runSet (k + pre.length) rest).calls,
         (push_go vaultname runSet (k + pre.length) rest).exitCode,
         (push_go vaultname runSet (k + pre.length) rest).exn⟩ := by
  induction pre generalizing k with
  | nil => simp
  | cons s pre ih =>
    have hs := h1 s (List.mem_cons_self s pre)
    have hrc : runSet k = 0 := by simpa using h2 0 (by simp)
    rw [List.cons_append, push_go_cons_ok vaultname runSet k s (pre ++ rest) hs hrc]
    rw [ih (k + 1) (fun x hx => h1 x (List.mem_cons_of_mem _ hx))
      (fun j hj => by
        have := h2 (j + 1) (by simp; omega)
        simpa [Nat.add_assoc, Nat.add_comm 1 j] using this)]
    have hk : k + 1 + pre.length = k + (s :: pre).length := by simp; omega
    rw [hk]
    simp

/-- C2: for every transfer file of set-reaching records, when the remote
set call for some record returns a non-zero exit, push reports failure for
that record's name and exits with status 1 at once: the set calls issued
are exactly those of the earlier records plus the failing one, none for
any record later in file order. -/
theorem push_set_failure_aborts_c2 (vaultname : String) (runSet : Nat → Nat)
    (pre : List Json) (s : Json) (post : List Json)
    (hpre : ∀ x ∈ pre, pushable x = true)
    (hok : ∀ j, j < pre.length → runSet j = 0)
    (hs : pushable s = true)
    (hfail : runSet pre.length ≠ 0) :
    (push_secrets vaultname (pre ++ s :: post) runSet).exitCode = some 1 ∧
    ("Error pushing secret " ++ recordName s)
        ∈ (push_secrets vaultname (pre ++ s :: post) runSet).echoes ∧
    (push_secrets vaultname (pre ++ s :: post) runSet).calls
      = pre.map (setCallOf vaultname) ++ [setCallOf vaultname s] := by
  have happ := push_go_append vaultname runSet 0 pre (s :: post) hpre (by simpa using hok)
  have hf := push_go_cons_fail vaultname runSet (0 + pre.length) s post hs (by simpa using hfail)
  rw [hf] at happ
  refine ⟨?_, ?_, ?_⟩ <;> simp [push_secrets, happ]

/-- C2 witness: a concrete push whose second set call fails stops with
exit 1 after exactly two set calls. -/
theorem push_set_failure_aborts_c2_witness :
    (push_secrets "kv"
        ([Json.obj [("name", Json.str "a"), ("value", Json.str "x")]]
          ++ Json.obj [("name", Json.str "b"), ("value", Json.str "y")]
          :: [Json.obj [("name", Json.str "c"), ("value", Json.str "z")]])
        (fun k => if k = 0 then 0 else 1)).exitCode = some 1 ∧
    ("Error pushing secret "
        ++ recordName (Json.obj [("name", Json.str "b"), ("value", Json.str "y")]))
        ∈ (push_secrets "kv"
        ([Json.obj [("name", Json.str "a"), ("value", Json.str "x")]]
          ++ Json.obj [("name", Json.str "b"), ("value", Json.str "y")]
          :: [Json.obj [("name", Json.str "c"), ("value", Json.str "z")]])
        (fun k => if k = 0 then 0 else 1)).echoes ∧
    (push_secrets "kv"
        ([Json.obj [("name", Json.str "a"), ("value", Json.str "x")]]
          ++ Json.obj [("name", Json.str "b"), ("value", Json.str "y")]
          :: [Json.obj [("name", Json.str "c"), ("value", Json.str "z")]])
        (fun k => if k = 0 then 0 else 1)).calls
      = [Json.obj [("name", Json.str "a"), ("value", Json.str "x")]].map (setCallOf "kv")
          ++ [setCallOf "kv" (Json.obj [("name", Json.str "b"), ("value", Json.str "y")])] :=
  push_set_failure_aborts_c2 "kv" (fun k => if k = 0 then 0 else 1)
    [Json.obj [("name", Json.str "a"), ("value", Json.str "x")]]
    (Json.obj [("name", Json.str "b"), ("value", Json.str "y")])
    [Json.obj [("name", Json.str "c"), ("value", Json.str "z")]]
    (by intro x hx; simp at hx; subst hx; rfl)
    (by intro j hj; simp at hj; subst hj; rfl)
    rfl (by decide)

/-- C3 counterexample: a record whose name and value are present but empty
strings is not reported as malformed; push issues a set call for it and
completes with success, contradicting the claim that such a record aborts
the run with the malformed diagnostic and no set call. -/
theorem push_empty_fields_counterexample_c3 :
    (push_secrets "kv" [Json.obj [("name", Json.str ""), ("value", Json.str "")]]
        (fun _ => 0)).calls = [RemoteCall.secretSet "kv" "" "" []] ∧
    (push_secrets "kv" [Json.obj [("name", Json.str ""), ("value", Json.str "")]]
        (fun _ => 0)).exitCode = none ∧
    malformedMsg ∉ (push_secrets "kv" [Json.obj [("name", Json.str ""), ("value", Json.str "")]]
        (fun _ => 0)).echoes := by
  refine ⟨rfl, rfl, ?_⟩
  decide

/-- C3 (amended): push validates each record in file order for being a
dict with name and value keys present (present-only: an empty-string name
or value passes validation and still reaches a set call); for the first
record failing this check, push reports the malformed-record diagnostic
and exits with status 1, issuing set calls only for the earlier records
and none for that record or any later one. -/
theorem push_malformed_aborts_c3 (vaultname : String) (runSet : Nat → Nat)
    (pre : List Json) (s : Json) (post : List Json)
    (hpre : ∀ x ∈ pre, pushable x = true)
    (hok : ∀ j, j < pre.length → runSet j = 0)
    (hbad : validRecord s = false) :
    (push_secrets vaultname (pre ++ s :: post) runSet).exitCode = some 1 ∧
    malformedMsg ∈ (push_secrets vaultname (pre ++ s :: post) runSet).echoes ∧
    (push_secrets vaultname (pre ++ s :: post) runSet).calls
      = pre.map (setCallOf vaultname) := by
  have happ := push_go_append vaultname runSet 0 pre (s :: post) hpre (by simpa using hok)
  have hb := push_go_cons_bad vaultname runSet (0 + pre.length) s post hbad
  rw [hb] at happ
  refine ⟨?_, ?_, ?_⟩ <;> simp [push_secrets, happ]

/-- C3 witness: a push file whose second record lacks a value stops with
exit 1 after the first record's set call only. -/
theorem push_malformed_aborts_c3_witness :
    (push_secrets "kv"
        ([Json.obj [("name", Json.str "a"), ("value", Json.str "x")]]
          ++ Json.obj [("name", Json.str "b")]
          :: [Json.obj [("name", Json.str "c"), ("value", Json.str "z")]])
        (fun _ => 0)).exitCode = some 1 ∧
    malformedMsg ∈ (push_secrets "kv"
        ([Json.obj [("name", Json.str "a"), ("value", Json.str "x")]]
          ++ Json.obj [("name", Json.str "b")]
          :: [Json.obj [("name", Json.str "c"), ("value", Json.str "z")]])
        (fun _ => 0)).echoes ∧
    (push_secrets "kv"
        ([Json.obj [("name", Json.str "a"), ("value", Json.str "x")]]
          ++ Json.obj [("name", Json.str "b")]
          :: [Json.obj [("name", Json.str "c"), ("value", Json.str "z")]])
        (fun _ => 0)).calls
      = [Json.obj [("name", Json.str "a"), ("value", Json.str "x")]].map (setCallOf "kv") :=
  push_malformed_aborts_c3 "kv" (fun _ => 0)
    [Json.obj [("name", Json.str "a"), ("value", Json.str "x")]]
    (Json.obj [("name", Json.str "b")])
    [Json.obj [("name", Json.str "c"), ("value", Json.str "z")]]
    (by intro x hx; simp at hx; subst hx; rfl)
    (by intro j hj; rfl)
    rfl

/-- C9: a record with name and value present and a JSON-null tags field,
which is exactly the object pull serializes for a remote secret without
tags, passes push validation (so no malformed diagnostic is echoed), gets
no set call, and instead ends the run in an uncaught exception when the
null tags value is flattened: the outcome is exactly the opening echo, no
calls, no clean exit status, and the exception flag set. -/
theorem push_null_tags_crash_c9 (vaultname n v : String) (runSet : Nat → Nat) :
    jget (pulledToJson ⟨n, v, none⟩) "tags" = some Json.null ∧
    validRecord (pulledToJson ⟨n, v, none⟩) = true ∧
    push_secrets vaultname [pulledToJson ⟨n, v, none⟩] runSet
      = ⟨["Pushing secrets to vault: " ++ vaultname], [], none, true⟩ :=
  ⟨rfl, rfl, rfl⟩

/-- C4 counterexample: the claim says the input Y returns false, but
confirm_action lower-cases the stripped line before comparing with y, so
Y confirms. -/
theorem confirm_Y_counterexample_c4 : confirm_action "pull" "kv" "Y" = true := by
  rfl

/-- C4 (amended): confirm_action returns true exactly when the input line,
after stripping whitespace and lower-casing, equals y; hence y and Y
return true while yes, the empty string and n return false. -/
theorem confirm_semantics_c4 (action vaultname : String) :
    confirm_action action vaultname "y" = true ∧
    confirm_action action vaultname "Y" = true ∧
    confirm_action action vaultname "yes" = false ∧
    confirm_action action vaultname "" = false ∧
    confirm_action action vaultname "n" = false ∧
    (∀ response : String,
      confirm_action action vaultname response = true ↔ pyLower (pyStrip response) = "y") := by
  refine ⟨rfl, rfl, rfl, rfl, rfl, fun response => ?_⟩
  simp [confirm_action]

/-- C8: when neither the subscription flag nor the environment fallback
yields a subscription id, main exits with status 1 before issuing any
remote call at all. -/
theorem missing_subscription_c8 (args : Args) (env : Env) (w : World)
    (h : strFalsy (pyOr args.subscription env.subscriptionId) = true) :
    (main args env w).exitCode = some 1 ∧ (main args env w).calls = [] := by
  constructor <;> simp [main, h]

/-- C8 witness: with no subscription flag and an empty environment, a
concrete run exits 1 having called nothing. -/
theorem missing_subscription_c8_witness :
    (main ⟨"pull", some "kv", "f", none, none, false, none⟩ ⟨none, none⟩
        ⟨0, 0, 0, "", "y", ⟨0, [], ""⟩, fun _ => none, fun _ => 0, [], none⟩).exitCode = some 1 ∧
    (main ⟨"pull", some "kv", "f", none, none, false, none⟩ ⟨none, none⟩
        ⟨0, 0, 0, "", "y", ⟨0, [], ""⟩, fun _ => none, fun _ => 0, [], none⟩).calls = [] :=
  missing_subscription_c8 ⟨"pull", some "kv", "f", none, none, false, none⟩ ⟨none, none⟩
    ⟨0, 0, 0, "", "y", ⟨0, [], ""⟩, fun _ => none, fun _ => 0, [], none⟩ (by decide)

theorem pySplitChar_ne_nil (sep : Char) (cs : List Char) : pySplitChar sep cs ≠ [] := by
  cases cs with
  | nil => simp [pySplitChar]
  | cons c cs =>
    simp only [pySplitChar]
    cases h : pySplitChar sep cs with
    | nil => simp
    | cons hh tt => by_cases hc : c = sep <;> simp [hc]

theorem pySplitChar_length (sep : Char) (cs : List Char) :
    (pySplitChar sep cs).length = cs.count sep + 1 := by
  induction cs with
  | nil => simp [pySplitChar]
  | cons c cs ih =>
    simp only [pySplitChar]
    cases h : pySplitChar sep cs with
    | nil => exact absurd h (pySplitChar_ne_nil sep cs)
    | cons hh tt =>
      rw [h] at ih
      by_cases hc : c = sep
      · subst hc
        simp [List.count_cons] at ih ⊢
        omega
      · simp [List.count_cons, hc] at ih ⊢
        omega

theorem pySplitChar_single (sep : Char) (cs : List Char) (h : List Char)
    (heq : pySplitChar sep cs = [h]) : cs = h := by
  induction cs generalizing h with
  | nil =>
    simp [pySplitChar] at heq
    simp [← heq]
  | cons c cs ih =>
    simp only [pySplitChar] at heq
    cases hr : pySplitChar sep cs with
    | nil => exact absurd hr (pySplitChar_ne_nil sep cs)
    | cons hh tt =>
      rw [hr] at heq
      by_cases hc : c = sep
      · simp [hc] at heq
      · simp [hc] at heq
        obtain ⟨h1, h2⟩ := heq
        have := ih hh (by rw [hr, h2])
        rw [← h1, this]

theorem pySplitChar_pair (sep : Char) (cs : List Char) (a b : List Char)
    (heq : pySplitChar sep cs = [a, b]) : cs = a ++ sep :: b := by
  induction cs generalizing a with
  | nil => simp [pySplitChar] at heq
  | cons c cs ih =>
    simp only [pySplitChar] at heq
    cases hr : pySplitChar sep cs with
    | nil => exact absurd hr (pySplitChar_ne_nil sep cs)
    | cons hh tt =>
      rw [hr] at heq
      by_cases hc : c = sep
      · simp [hc] at heq
        obtain ⟨ha, hb, ht⟩ := heq
        have hcs : cs = b := pySplitChar_single sep cs b (by rw [hr, hb, ht])
        rw [ha, hcs, hc]
        rfl
      · simp [hc] at heq
        obtain ⟨ha, ht⟩ := heq
        have hcs : cs = hh ++ sep :: b := ih hh (by rw [hr, ht])
        rw [← ha, hcs]
        rfl

theorem splitEq_of_count_one (t : String) (h : t.toList.count ('=') = 1) :
    ∃ k v : String, pySplitEq t = [k, v] ∧ t = k ++ "=" ++ v := by
  have hlen : (pySplitChar ('=') t.toList).length = 2 := by
    rw [pySplitChar_length]
    omega
  obtain ⟨a, b, hab⟩ : ∃ a b, pySplitChar ('=') t.toList = [a, b] := by
    match hr : pySplitChar ('=') t.toList with
    | [a, b] => exact ⟨a, b, rfl⟩
    | [] => rw [hr] at hlen; simp at hlen
    | [x] => rw [hr] at hlen; simp at hlen
    | x :: y :: z :: r => rw [hr] at hlen; simp at hlen
  refine ⟨String.mk a, String.mk b, ?_, ?_⟩
  · simp only [pySplitEq]
    rw [hab]
    rfl
  · have hjoin := pySplitChar_pair ('=') t.toList a b hab
    apply String.ext
    rw [show ((String.mk a ++ "=") ++ String.mk b).data = (a ++ [('=')]) ++ b from rfl]
    rw [List.append_assoc]
    exact hjoin

theorem parseTagPairs_none (ts : List String) (t : String) (hmem : t ∈ ts)
    (hbad : t.toList.count ('=') ≠ 1) : parseTagPairs ts = none := by
  induction ts with
  | nil => cases hmem
  | cons s ts ih =>
    rcases List.mem_cons.mp hmem with h | h
    · subst h
      have hlen : (pySplitEq t).length ≠ 2 := by
        simp only [pySplitEq, List.length_map, pySplitChar_length]
        omega
      simp only [parseTagPairs]
      split
      · rename_i k v heq
        rw [heq] at hlen
        simp at hlen
      · rfl
    · have hnone := ih h
      simp only [parseTagPairs]
      split
      · rw [hnone]; rfl
      · rfl

/-- C10: a tags token holding exactly one equals sign is parsed into the
key/value pair the tag-filter dict receives, while a run that reaches the
pull branch with some token holding zero or several equals signs dies in
an uncaught ValueError during dict construction: the exception flag is
set, no clean exit-code-1 diagnostic path is taken, and the only remote
calls of the run are the session ones, with no listing, fetch or set call
ever issued. -/
theorem tags_parsing_c10 :
    (∀ t : String, t.toList.count ('=') = 1 →
        ∃ k v : String, pySplitEq t = [k, v] ∧ t = k ++ "=" ++ v) ∧
    (∀ (args : Args) (env : Env) (w : World) (ts : List String) (t : String),
        args.direction = "pull" → args.tags = some ts → t ∈ ts →
        t.toList.count ('=') ≠ 1 →
        strFalsy (pyOr args.subscription env.subscriptionId) = false →
        strFalsy (pyOr args.vaultname env.keyvaultName) = false →
        w.accountShowRc = 0 → w.accountSetRc = 0 →
        pyLower (pyStrip w.confirmResponse) = "y" →
        (main args env w).exn = true ∧ (main args env w).exitCode = none ∧
        (main args env w).calls
          = [RemoteCall.accountShow,
             RemoteCall.accountSet ((pyOr args.subscription env.subscriptionId).getD "")]) := by
  constructor
  · exact splitEq_of_count_one
  · intro args env w ts t hdir htags hmem hcount hsub hvn hshow hacc hconf
    have hmt : mainTagDict args.tags = none := by
      rw [htags]
      have hne : ts ≠ [] := List.ne_nil_of_mem hmem
      simp [mainTagDict, hne, parseTagPairs_none ts t hmem hcount]
    have hgd : (pyOr args.subscription env.subscriptionId).getD "" ≠ "" := by
      cases hp : pyOr args.subscription env.subscriptionId with
      | none => rw [hp] at hsub; simp [strFalsy] at hsub
      | some s =>
        rw [hp] at hsub
        simp only [strFalsy, Option.getD_some] at hsub ⊢
        simpa using hsub
    refine ⟨?_, ?_, ?_⟩ <;>
      simp [main, hsub, hvn, azure_login_check, hshow, switch_subscription, hgd, hacc,
        confirm_action, hconf, hdir, hmt]

/-- C10 witness: the token a=b parses into the pair (a, b); a concrete
pull run given the token ab raises the exception after only the session
calls. -/
theorem tags_parsing_c10_witness :
    (∃ k v : String, pySplitEq "a=b" = [k, v] ∧ "a=b" = k ++ "=" ++ v) ∧
    ((main ⟨"pull", some "kv", "f", some ["ab"], none, false, some "sub"⟩ ⟨none, none⟩
        ⟨0, 0, 0, "", "y", ⟨0, [], ""⟩, fun _ => none, fun _ => 0, [], none⟩).exn = true ∧
     (main ⟨"pull", some "kv", "f", some ["ab"], none, false, some "sub"⟩ ⟨none, none⟩
        ⟨0, 0, 0, "", "y", ⟨0, [], ""⟩, fun _ => none, fun _ => 0, [], none⟩).exitCode = none ∧
     (main ⟨"pull", some "kv", "f", some ["ab"], none, false, some "sub"⟩ ⟨none, none⟩
        ⟨0, 0, 0, "", "y", ⟨0, [], ""⟩, fun _ => none, fun _ => 0, [], none⟩).calls
       = [RemoteCall.accountShow,
          RemoteCall.accountSet ((pyOr (some "sub") none).getD "")]) :=
  ⟨tags_parsing_c10.1 "a=b" (by decide),
   tags_parsing_c10.2 ⟨"pull", some "kv", "f", some ["ab"], none, false, some "sub"⟩ ⟨none, none⟩
     ⟨0, 0, 0, "", "y", ⟨0, [], ""⟩, fun _ => none, fun _ => 0, [], none⟩ ["ab"] "ab"
     rfl rfl (by simp) (by decide) (by decide) (by decide) rfl rfl (by decide)⟩

/-- The tag arguments push passes for a pulled record, written from its
tags: nothing for null tags, key=value per pair otherwise. -/
def flattenTags : Option (List (String × String)) → List String
  | none => []
  | some m => m.map (fun p => p.1 ++ "=" ++ p.2)

theorem pushable_pulledToJson (r : PulledSecret) (h : r.tags.isSome = true) :
    pushable (pulledToJson r) = true := by
  cases r with
  | mk n v t =>
    cases t with
    | none => simp at h
    | some m => rfl

theorem setCallOf_pulledToJson (vaultname : String) (r : PulledSecret) :
    setCallOf vaultname (pulledToJson r)
      = RemoteCall.secretSet vaultname r.name r.value (flattenTags r.tags) := by
  cases r with
  | mk n v t =>
    cases t with
    | none => rfl
    | some m =>
      simp [setCallOf, recordName, recordValue, recordTagArgs, pulledToJson, tagsToJson,
        jget, flattenTags, List.find?, List.map_map]
      exact fun a b _ => rfl

theorem pullFilter_total (f : String → PulledSecret) (ids : List String) :
    pullFilter (fun i => some (f i)) none ids = ids.map f := by
  induction ids with
  | nil => rfl
  | cons id rest ih =>
    simp only [pullFilter, List.filterMap_cons, List.filter_cons, List.map_cons] at ih ⊢
    simpa [includeRecord] using ih

/-- C7 counterexample: a vault holding one untagged secret breaks the
round trip: pull writes the record with null tags, and pushing that file
back issues zero set calls (not one per pulled secret), dying in the
null-tags exception instead. -/
theorem roundtrip_counterexample_c7 :
    (pull_secrets "kv" [] "f" none false ⟨0, ["i1"], ""⟩
        (fun _ => some ⟨"a", "b", none⟩) none).file
      = some (dumpPulled [⟨"a", "b", none⟩]) ∧
    (push_secrets "kv" [pulledToJson ⟨"a", "b", none⟩] (fun _ => 0)).calls = [] ∧
    (push_secrets "kv" [pulledToJson ⟨"a", "b", none⟩] (fun _ => 0)).exn = true :=
  ⟨rfl, rfl, rfl⟩

/-- C7 (amended): for a vault state in which every secret carries a
non-null tags mapping, pulling with an empty tag filter and no name
pattern (all fetches succeeding) and then pushing the resulting file back
issues exactly one set call per pulled secret, in the same order, with
name, value and flattened tags identical to the pulled record; a secret
with null tags instead crashes push before its set call (see C9). -/
theorem roundtrip_c7 (vaultname filename : String) (ids : List String)
    (f : String → PulledSecret) (runSet : Nat → Nat) (prior : Option String) (verbose : Bool)
    (htags : ∀ id ∈ ids, (f id).tags.isSome = true)
    (hset : ∀ k, runSet k = 0) :
    (pull_secrets vaultname [] filename none verbose ⟨0, ids, ""⟩ (fun i => some (f i)) prior).file
      = some (dumpPulled (ids.map f)) ∧
    (push_secrets vaultname ((ids.map f).map pulledToJson) runSet).calls
      = (ids.map f).map
          (fun r => RemoteCall.secretSet vaultname r.name r.value (flattenTags r.tags)) ∧
    (push_secrets vaultname ((ids.map f).map pulledToJson) runSet).exitCode = none ∧
    (push_secrets vaultname ((ids.map f).map pulledToJson) runSet).exn = false := by
  have hpush := push_go_append vaultname runSet 0 ((ids.map f).map pulledToJson) []
    (by
      intro x hx
      obtain ⟨r, hr, hx⟩ := List.mem_map.mp hx
      obtain ⟨id, hid, hr2⟩ := List.mem_map.mp hr
      rw [← hx]
      rw [← hr2] at *
      exact pushable_pulledToJson _ (htags id hid))
    (fun j _ => hset _)
  rw [List.append_nil] at hpush
  rw [show push_go vaultname runSet (0 + ((ids.map f).map pulledToJson).length) []
      = ⟨[], [], none, false⟩ from rfl] at hpush
  refine ⟨?_, ?_, ?_, ?_⟩
  · rw [pull_secrets_file_eq vaultname [] filename none verbose ⟨0, ids, ""⟩
      (fun i => some (f i)) prior rfl]
    rw [pullFilter_total]
  · simp only [push_secrets]
    rw [hpush]
    simp only [List.append_nil, List.map_map]
    exact List.map_congr_left (fun a _ => setCallOf_pulledToJson vaultname (f a))
  · simp only [push_secrets]
    rw [hpush]
  · simp only [push_secrets]
    rw [hpush]

/-- C7 witness: a one-secret vault with a tagged secret round-trips into
exactly one identical set call. -/
theorem roundtrip_c7_witness :
    (pull_secrets "kv" [] "f" none false ⟨0, ["i1"], ""⟩
        (fun i => some ((fun _ => (⟨"a", "b", some [("k", "x")]⟩ : PulledSecret)) i)) none).file
      = some (dumpPulled (["i1"].map (fun _ => (⟨"a", "b", some [("k", "x")]⟩ : PulledSecret)))) ∧
    (push_secrets "kv"
        ((["i1"].map (fun _ => (⟨"a", "b", some [("k", "x")]⟩ : PulledSecret))).map pulledToJson)
        (fun _ => 0)).calls
      = (["i1"].map (fun _ => (⟨"a", "b", some [("k", "x")]⟩ : PulledSecret))).map
          (fun r => RemoteCall.secretSet "kv" r.name r.value (flattenTags r.tags)) ∧
    (push_secrets "kv"
        ((["i1"].map (fun _ => (⟨"a", "b", some [("k", "x")]⟩ : PulledSecret))).map pulledToJson)
        (fun _ => 0)).exitCode = none ∧
    (push_secrets "kv"
        ((["i1"].map (fun _ => (⟨"a", "b", some [("k", "x")]⟩ : PulledSecret))).map pulledToJson)
        (fun _ => 0)).exn = false :=
  roundtrip_c7 "kv" "f" ["i1"] (fun _ => ⟨"a", "b", some [("k", "x")]⟩) (fun _ => 0) none false
    (by intro id hid; rfl) (fun _ => rfl)

end KeyVault
